import Mathlib

/-!
A verification development for the syn3 functional-mapping pipeline.

The Python pipeline variants are shallowly embedded here:

* response bodies, headers and messages are `List Char` (Python `str`);
* Python floats (E-values, bit scores, percentages) are modelled as exact
  rationals `ℚ`; the two percentage computations are written with `mkRat`
  (see `pctOf`, with the bridging lemma `pctOf_eq_div` relating it to the
  source expression `a / b * 100`);
* fallible code is `Except Unit` (a raised exception) or `Option`;
* the regex searches of the source are embedded as explicit scanning
  functions over `List Char` (`occursIn` for the `in` operator,
  `searchCapture` for `re.search` with a single capture group).
-/

set_option maxRecDepth 100000

/-- Python `pat in s` (substring containment), scanning left to right. -/
def occursIn (pat : List Char) : List Char → Bool
  | [] => pat.isEmpty
  | c :: cs => pat.isPrefixOf (c :: cs) || occursIn pat cs

/-- Python `s.lower()`, ASCII case folding. -/
def lowerL (s : List Char) : List Char := s.map Char.toLower

/-- A character matched by the regex class `\w` (ASCII approximation). -/
def isWordChar (c : Char) : Bool := c.isAlphanum || c = '_'

/-- `re.search(key ++ "(<capture>+)", s)`: find the leftmost position where the
literal `key` occurs followed by at least one character satisfying `p`, and
return the maximal (greedy) run of such characters.  Models the source
patterns `RID = (\w+)`, `protein_id=([^\]]+)`, etc. -/
def searchCapture (key : List Char) (p : Char → Bool) : List Char → Option (List Char)
  | [] => none
  | c :: cs =>
    if key.isPrefixOf (c :: cs) then
      match ((c :: cs).drop key.length).takeWhile p with
      | [] => searchCapture key p cs
      | w => some w
    else searchCapture key p cs

/-- Python `line.strip()` (whitespace trim on both ends). -/
def pyStrip (s : List Char) : List Char :=
  (((s.dropWhile Char.isWhitespace).reverse).dropWhile Char.isWhitespace).reverse

/-- The literal status marker `Status=WAITING`. -/
def statusWaitingMarker : List Char := "Status=WAITING".data

/-- The literal status marker `Status=FAILED`. -/
def statusFailedMarker : List Char := "Status=FAILED".data

/-- The literal status marker `Status=UNKNOWN`. -/
def statusUnknownMarker : List Char := "Status=UNKNOWN".data

/-- The result-envelope opening tag `<BlastOutput>`. -/
def blastOutputMarker : List Char := "<BlastOutput>".data

/-- Classification of one poll-response body.  `other` is the fall-through
case (`"unknown"` in `check_blast_status_fast`, a silent retry in
`check_blast_status`). -/
inductive BodyStatus where
  | waiting | failed | expired | ready | other
deriving DecidableEq

/-- The status-classification chain shared by
`parallel_blast_pipeline.check_blast_status_fast` (lines 166-175) and the
loop body of `web_blast_pipeline.check_blast_status` (lines 155-165):
`Status=WAITING`, `Status=FAILED`, `Status=UNKNOWN` are tested in that
order, and only afterwards is the body tested for being a complete result
payload (more than 1000 characters and containing `<BlastOutput>`). -/
def classifyBody (t : List Char) : BodyStatus :=
  if occursIn statusWaitingMarker t then .waiting
  else if occursIn statusFailedMarker t then .failed
  else if occursIn statusUnknownMarker t then .expired
  else if 1000 < t.length ∧ occursIn blastOutputMarker t then .ready
  else .other

/-- The result of one HTTP request: a transport failure carrying the
exception text, or a response with a status code and a body. -/
inductive HttpResult where
  | err (msg : List Char)
  | ok (code : Nat) (body : List Char)
deriving DecidableEq

/-- The string status returned by `check_blast_status_fast` alongside the
optional payload. -/
inductive CheckStatus where
  | waiting | failed | expired | ready | unknown | httpError | exn (msg : List Char)
deriving DecidableEq

/-- `parallel_blast_pipeline.check_blast_status_fast` (lines 152-178):
an exception gives `(None, str(e))`; a non-200 code gives
`(None, "HTTP error")`; otherwise the body is classified and the payload is
returned only for `ready`. -/
def check_blast_status_fast : HttpResult → Option (List Char) × CheckStatus
  | .err m => (none, .exn m)
  | .ok code t =>
    if code ≠ 200 then (none, .httpError)
    else
      match classifyBody t with
      | .waiting => (none, .waiting)
      | .failed => (none, .failed)
      | .expired => (none, .expired)
      | .ready => (some t, .ready)
      | .other => (none, .unknown)

/-- Terminal outcome of `process_single_protein_worker`'s wait loop
(parallel_blast_pipeline lines 240-258): breaking with a payload leads to a
success result, `failed`/`expired` return a failed result immediately, and
loop exhaustion with no payload is reported as `timeout`. -/
inductive WorkerOutcome where
  | ready (payload : List Char)
  | blastFailed
  | blastExpired
  | timedOut
deriving DecidableEq

/-- The wait loop of `process_single_protein_worker` (lines 240-258):
`for attempt in range(max_attempts)` sleeps, issues one status query, breaks
on `ready`, returns a failed result on `failed`/`expired`, and otherwise
continues; afterwards a missing (or empty, hence falsy) payload is a
timeout.  `responses` gives the HTTP result of the query at each attempt;
the second component counts issued queries.  The fuel argument is the
remaining iterations of the `range(max_attempts)` loop. -/
def pollLoopFast (responses : Nat → HttpResult) : Nat → Nat → WorkerOutcome × Nat
  | 0, _ => (.timedOut, 0)
  | fuel + 1, attempt =>
    match check_blast_status_fast (responses attempt) with
    | (xml, .ready) =>
      match xml with
      | some (c :: cs) => (.ready (c :: cs), 1)
      | _ => (.timedOut, 1)
    | (_, .failed) => (.blastFailed, 1)
    | (_, .expired) => (.blastExpired, 1)
    | _ =>
      let r := pollLoopFast responses fuel (attempt + 1)
      (r.1, r.2 + 1)

/-- `process_single_protein_worker`'s polling phase with the per-job attempt
budget `max_attempts`, starting at attempt 0. -/
def process_single_protein_poll (responses : Nat → HttpResult) (max_attempts : Nat) :
    WorkerOutcome × Nat :=
  pollLoopFast responses max_attempts 0

/-- The key of the submission-response pattern `RID = (\w+)`. -/
def ridKey : List Char := "RID = ".data

/-- `re.search(r'RID = (\w+)', text)`, returning the captured token. -/
def findRid (text : List Char) : Option (List Char) :=
  searchCapture ridKey isWordChar text

/-- `parallel_blast_pipeline.submit_blast_optimized` (lines 112-150),
restricted to the part that translates the HTTP result into
`(handle, outcome)`: an exception yields `(None, str(e))`, a non-200 status
yields `(None, f"HTTP error <code>")`, a 200 response without the RID
pattern yields `(None, "No RID found")`, otherwise `(rid, "success")`. -/
def submit_blast_optimized : HttpResult → Option (List Char) × List Char
  | .err m => (none, m)
  | .ok code body =>
    if code ≠ 200 then (none, "HTTP error ".data ++ (Nat.repr code).data)
    else
      match findRid body with
      | none => (none, "No RID found".data)
      | some rid => (some rid, "success".data)

/-- `fast_blast_pipeline.submit_blast_fast` (lines 105-137): the final
statement `return rid_match.group(1) if rid_match else None, "success"`
pairs the optional handle with the fixed outcome `"success"`, so a missing
RID is not reported by a dedicated outcome. -/
def submit_blast_fast : HttpResult → Option (List Char) × List Char
  | .err m => (none, m)
  | .ok code body =>
    if code ≠ 200 then (none, "HTTP_".data ++ (Nat.repr code).data)
    else (findRid body, "success".data)

/-- A primitive file-system step on the progress file: `open(file, 'w')`
truncates the file in place, and a subsequent write appends the serialized
text. -/
inductive FsOp where
  | truncate
  | writeChunk (s : List Char)
deriving DecidableEq

/-- Effect of one primitive step on the progress-file content (`none` means
the file does not exist). -/
def applyFsOp : Option (List Char) → FsOp → Option (List Char)
  | _, .truncate => some []
  | c, .writeChunk s => some (c.getD [] ++ s)

/-- Content of the progress file after a sequence of primitive steps. -/
def runFsOps (c0 : Option (List Char)) (ops : List FsOp) : Option (List Char) :=
  ops.foldl applyFsOp c0

/-- The primitive steps of `batch_blast_analysis`'s progress save
(batch_bacterial_analysis lines 111-112):
`with open(progress_file, 'w') as f: json.dump(progress_data, f, indent=2)`
truncates the progress file in place and then writes the serialized state
`payload`.  No temporary file and no replace step are involved. -/
def saveProgressOps (payload : List Char) : List FsOp :=
  [.truncate, .writeChunk payload]

/-- An in-place save is atomic from initial content `c0` when every
interruption point (after any prefix of its primitive steps) leaves the
progress file either at its previous content or at the fully written new
payload. -/
def atomicSaveFrom (c0 : Option (List Char)) (payload : List Char) : Prop :=
  ∀ k ≤ (saveProgressOps payload).length,
    runFsOps c0 ((saveProgressOps payload).take k) = c0 ∨
    runFsOps c0 ((saveProgressOps payload).take k) = some payload

/-- The persisted progress state of `batch_bacterial_analysis`
(`batch_progress.json`): `last_completed_index` and the accumulated result
rows (rows kept abstract). -/
structure ProgressData (α : Type) where
  last_completed_index : Nat
  results : List α
deriving DecidableEq

/-- Resume logic of `batch_blast_analysis` (batch_bacterial_analysis lines
83-90): when a saved progress file exists, the accumulated results are
re-seeded from it and the start index becomes
`last_completed_index + 1`; otherwise the provided `start_index` and an
empty result list are used. -/
def resumeStart {α : Type} (saved : Option (ProgressData α)) (start_index : Nat) : Nat :=
  match saved with
  | some st => st.last_completed_index + 1
  | none => start_index

/-- The accumulated result list `batch_blast_analysis` starts from. -/
def resumeResults {α : Type} (saved : Option (ProgressData α)) : List α :=
  match saved with
  | some st => st.results
  | none => []

/-- The protein indices submitted by the batch loop
`for i in range(start_index, len(proteins), batch_size)` of
`batch_blast_analysis` (lines 92-100), where the batch starting at `i`
covers `proteins[i : i + batch_size]`.  The fuel argument bounds the number
of loop iterations; `n` iterations suffice for any `batch_size ≥ 1`
(Python's `range` raises on a zero step). -/
def batchIndexLoop (n batch_size : Nat) : Nat → Nat → List Nat
  | _, 0 => []
  | i, fuel + 1 =>
    if i < n then
      List.range' i (min batch_size (n - i)) ++ batchIndexLoop n batch_size (i + batch_size) fuel
    else []

/-- All protein indices processed by a run of `batch_blast_analysis` over
`n` proteins with the given batch size and start index. -/
def processedIndices (n batch_size start : Nat) : List Nat :=
  batchIndexLoop n batch_size start n

/-- One scored alignment segment (`<Hsp>...</Hsp>` block) of a hit.  Each
field is `some v` when the corresponding tag is found by the source regex
(`Hsp_evalue`, `Hsp_identity`, `Hsp_align-len`, `Hsp_bit-score`) and `none`
when it is absent; captured numbers are modelled as exact values. -/
structure Hsp where
  evalue : Option ℚ
  identity : Option Nat
  align_len : Option Nat
  bit_score : Option ℚ
deriving DecidableEq

/-- One raw hit block (`<Hit>...</Hit>`) of a result payload, as seen by the
block-level regexes `Hit_def`, `Hit_accession`, `Hit_len` and the list of
its `Hsp` segments in document order. -/
structure HitBlock where
  hit_def : Option (List Char)
  hit_accession : Option (List Char)
  hit_len : Option Nat
  hsps : List Hsp
deriving DecidableEq

/-- `self.config` of `WebBlastPipeline` as used by `parse_blast_xml`. -/
structure BlastConfig where
  evalue_threshold : ℚ
  max_hits : Nat
  min_identity : ℚ
  min_coverage : ℚ
  exclude_organisms : List (List Char)
deriving DecidableEq

/-- The configuration constructed in `WebBlastPipeline.__init__` (lines
32-38): E-value ceiling 0.01, 50 hits, identity floor 30.0, coverage floor
50.0, exclusion set `['mycoplasma']`. -/
def webConfig : BlastConfig :=
  { evalue_threshold := mkRat 1 100
    max_hits := 50
    min_identity := 30
    min_coverage := 50
    exclude_organisms := ["mycoplasma".data] }

/-- `a / b * 100` on exact rationals, as computed by the source for identity
and coverage percentages; written with `mkRat` (equal to the division form
for `b ≠ 0`, see `pctOf_eq_div`; the `b = 0` case is never reached because
the sources guard `query_length > 0` and a zero alignment length raises
before this expression is formed). -/
def pctOf (a b : Nat) : ℚ := mkRat (a * 100) b

/-- The `mkRat` form of the percentage computation agrees with the source
expression `a / b * 100` whenever the denominator is non-zero. -/
theorem pctOf_eq_div (a b : Nat) (hb : b ≠ 0) :
    pctOf a b = (a : ℚ) / (b : ℚ) * 100 := by
  rw [pctOf, Rat.mkRat_eq_div]
  have hb' : (b : ℚ) ≠ 0 := Nat.cast_ne_zero.mpr hb
  push_cast
  field_simp

/-- The client-side organism-exclusion test of `parse_blast_xml` (lines
192-194): `hit_def and any(org in hit_def.group(1).lower() for org in
self.config['exclude_organisms'])`.  Note that the description is
lowercased but the exclusion entries are matched verbatim. -/
def excludedWeb (exclude_organisms : List (List Char)) (b : HitBlock) : Bool :=
  match b.hit_def with
  | some d => exclude_organisms.any (fun org => occursIn org (lowerL d))
  | none => false

/-- A normalized hit produced by `web_blast_pipeline.parse_blast_xml`
(the dict built at lines 223-233). -/
structure WebHit where
  hit_accession : List Char
  hit_def : List Char
  hit_len : Nat
  evalue : ℚ
  identity : Nat
  align_len : Nat
  bit_score : ℚ
  identity_percent : ℚ
  coverage_percent : ℚ
deriving DecidableEq

/-- Processing of one hit block by `parse_blast_xml` (lines 186-233):
excluded blocks and blocks missing an HSP or a required numeric field
contribute nothing; a zero alignment length makes the identity-percentage
division raise `ZeroDivisionError` (the `.error` case, caught only at the
whole-payload level); otherwise the filters decide whether a `WebHit` is
retained.  `round(·, 2)` of the source only rounds the stored percentage
fields for reporting; the exact values are kept here. -/
def processHitWeb (cfg : BlastConfig) (query_length : Nat) (b : HitBlock) :
    Except Unit (Option WebHit) :=
  if excludedWeb cfg.exclude_organisms b then .ok none
  else
    match b.hsps with
    | [] => .ok none
    | hsp :: _ =>
      match hsp.evalue, hsp.identity, hsp.align_len with
      | some ev, some idn, some al =>
        if al = 0 then .error ()
        else
          let identity_percent : ℚ := pctOf idn al
          let coverage_percent : ℚ := if 0 < query_length then pctOf al query_length else 0
          if ev ≤ cfg.evalue_threshold ∧ identity_percent ≥ cfg.min_identity ∧
              coverage_percent ≥ cfg.min_coverage then
            .ok (some
              { hit_accession := b.hit_accession.getD "Unknown".data
                hit_def := b.hit_def.getD "Unknown".data
                hit_len := b.hit_len.getD 0
                evalue := ev
                identity := idn
                align_len := al
                bit_score := hsp.bit_score.getD 0
                identity_percent := identity_percent
                coverage_percent := coverage_percent })
          else .ok none
      | _, _, _ => .ok none

/-- Run a per-block extractor over the blocks in order, accumulating the
retained hits; the first raised exception aborts the whole traversal (the
`try` of the source wraps the entire loop). -/
def collectBlocks {H : Type} (f : HitBlock → Except Unit (Option H)) :
    List HitBlock → Except Unit (List H)
  | [] => .ok []
  | b :: bs =>
    match f b with
    | .error e => .error e
    | .ok none => collectBlocks f bs
    | .ok (some h) =>
      match collectBlocks f bs with
      | .error e => .error e
      | .ok hs => .ok (h :: hs)

/-- `web_blast_pipeline.parse_blast_xml` (lines 176-241) over the hit
blocks of a payload: collect the retained hits in block order, then
`hits.sort(key=lambda x: x['evalue'])`.  Python's sort is a stable
ascending sort on the key; it is modelled by the stable `insertionSort`
with the E-value comparator (any two stable sorts of the same list under
the same total key agree).  Any exception makes the whole parse return the
empty list (lines 239-241). -/
def parse_blast_xml (cfg : BlastConfig) (query_length : Nat) (blocks : List HitBlock) :
    List WebHit :=
  match collectBlocks (processHitWeb cfg query_length) blocks with
  | .error _ => []
  | .ok hits => List.insertionSort (fun a b => a.evalue ≤ b.evalue) hits

/-- First captured value of a per-HSP field inside a whole hit block: the
fast parsers regex-search the entire block text, so the first occurrence of
a tag anywhere among the block's HSP segments is used. -/
def firstHspField {β : Type} (f : Hsp → Option β) (b : HitBlock) : Option β :=
  (b.hsps.filterMap f).head?

/-- The hardcoded exclusion test of `parse_blast_xml_fast` (lines 192-194)
and `parse_xml_fast` (lines 177-179):
`hit_def and 'mycoplasma' in hit_def.group(1).lower()`. -/
def excludedFast (b : HitBlock) : Bool :=
  match b.hit_def with
  | some d => occursIn "mycoplasma".data (lowerL d)
  | none => false

/-- A hit produced by `parallel_blast_pipeline.parse_blast_xml_fast`
(the dict built at lines 213-219). -/
structure FastHit where
  hit_accession : List Char
  hit_def : List Char
  evalue : ℚ
  identity_percent : ℚ
  coverage_percent : ℚ
deriving DecidableEq

/-- Processing of one hit block by `parse_blast_xml_fast` (lines 190-219):
skip `mycoplasma` blocks, take the first occurrence of each numeric field
in the block, raise on a zero alignment length, and retain the hit when
`evalue ≤ 0.01`, identity ≥ 30 % and coverage ≥ 30 %. -/
def processHitFast (query_length : Nat) (b : HitBlock) : Except Unit (Option FastHit) :=
  if excludedFast b then .ok none
  else
    match firstHspField Hsp.evalue b, firstHspField Hsp.identity b,
        firstHspField Hsp.align_len b with
    | some ev, some idn, some al =>
      if al = 0 then .error ()
      else
        let identity_percent : ℚ := pctOf idn al
        let coverage_percent : ℚ := if 0 < query_length then pctOf al query_length else 0
        if ev ≤ mkRat 1 100 ∧ identity_percent ≥ 30 ∧ coverage_percent ≥ 30 then
          .ok (some
            { hit_accession := b.hit_accession.getD "Unknown".data
              hit_def := b.hit_def.getD "Unknown".data
              evalue := ev
              identity_percent := identity_percent
              coverage_percent := coverage_percent })
        else .ok none
    | _, _, _ => .ok none

/-- `parallel_blast_pipeline.parse_blast_xml_fast` (lines 180-225):
`for hit_content in hit_matches[:10]` truncates the RAW block list to its
first 10 entries before any filtering, no sort is applied afterwards, and
any exception yields the empty list. -/
def parse_blast_xml_fast (query_length : Nat) (blocks : List HitBlock) : List FastHit :=
  match collectBlocks (processHitFast query_length) (blocks.take 10) with
  | .error _ => []
  | .ok hits => hits

/-- A hit produced by `fast_blast_pipeline.parse_xml_fast` (the dict built
at lines 196-201); the description is truncated to 80 characters. -/
structure Fast2Hit where
  evalue : ℚ
  identity_percent : ℚ
  coverage_percent : ℚ
  description : List Char
deriving DecidableEq

/-- Processing of one hit block by `fast_blast_pipeline.parse_xml_fast`
(lines 176-201): like `processHitFast` but with identity and coverage
floors of 25 %. -/
def processHitFast2 (query_length : Nat) (b : HitBlock) : Except Unit (Option Fast2Hit) :=
  if excludedFast b then .ok none
  else
    match firstHspField Hsp.evalue b, firstHspField Hsp.identity b,
        firstHspField Hsp.align_len b with
    | some ev, some idn, some al =>
      if al = 0 then .error ()
      else
        let identity_percent : ℚ := pctOf idn al
        let coverage_percent : ℚ := if 0 < query_length then pctOf al query_length else 0
        if ev ≤ mkRat 1 100 ∧ identity_percent ≥ 25 ∧ coverage_percent ≥ 25 then
          .ok (some
            { evalue := ev
              identity_percent := identity_percent
              coverage_percent := coverage_percent
              description := (b.hit_def.getD "Unknown".data).take 80 })
        else .ok none
    | _, _, _ => .ok none

/-- `fast_blast_pipeline.parse_xml_fast` (lines 165-206): the raw block
list is truncated to its first 8 entries before filtering (`matches[:8]`),
no sort is applied, and any exception yields the empty list. -/
def parse_xml_fast (query_length : Nat) (blocks : List HitBlock) : List Fast2Hit :=
  match collectBlocks (processHitFast2 query_length) (blocks.take 8) with
  | .error _ => []
  | .ok hits => hits

/-- `extract_protein_id` of `web_blast_pipeline` (lines 91-94) and
`batch_bacterial_analysis` (lines 62-64):
`re.search(r'protein_id=([^\]]+)', header)` with default `"Unknown"`. -/
def extract_protein_id (header : List Char) : List Char :=
  (searchCapture "protein_id=".data (fun c => c ≠ ']') header).getD "Unknown".data

/-- `extract_protein_name` (web lines 96-99, batch lines 66-68):
`re.search(r'protein=([^\]]+)', header)` with default
`"hypothetical protein"`. -/
def extract_protein_name (header : List Char) : List Char :=
  (searchCapture "protein=".data (fun c => c ≠ ']') header).getD "hypothetical protein".data

/-- `extract_locus_tag` of `batch_bacterial_analysis` (lines 70-72). -/
def extract_locus_tag (header : List Char) : List Char :=
  (searchCapture "locus_tag=".data (fun c => c ≠ ']') header).getD "Unknown".data

/-- A record returned by `web_blast_pipeline.parse_fasta_file`
(the dict built at lines 68-73). -/
structure FastaProtein where
  header : List Char
  sequence : List Char
  protein_id : List Char
  protein_name : List Char
deriving DecidableEq

/-- The line loop of `web_blast_pipeline.parse_fasta_file` (lines 55-89):
each line is stripped; a `>` line flushes the current record (whenever a
header is present — the sequence may be empty) and starts a new one; other
lines extend the current sequence; the last record is flushed at EOF.  The
unset header (`None` in the source) is the empty list: set headers are
stripped `>`-lines, hence never empty. -/
def webFastaLoop :
    List (List Char) → List Char → List Char → List FastaProtein → List FastaProtein
  | [], header, seq, acc =>
    if header ≠ [] then
      acc ++ [⟨header, seq, extract_protein_id header, extract_protein_name header⟩]
    else acc
  | line :: rest, header, seq, acc =>
    let l := pyStrip line
    if l.head? = some '>' then
      let acc' :=
        if header ≠ [] then
          acc ++ [⟨header, seq, extract_protein_id header, extract_protein_name header⟩]
        else acc
      webFastaLoop rest l [] acc'
    else webFastaLoop rest header (seq ++ l) acc

/-- `web_blast_pipeline.parse_fasta_file` on the lines of the input file. -/
def parse_fasta_file (lines : List (List Char)) : List FastaProtein :=
  webFastaLoop lines [] [] []

/-- A record returned by `batch_bacterial_analysis.parse_all_syn3a_proteins`
(the dict built at lines 31-38). -/
structure Syn3AProtein where
  protein_id : List Char
  locus_tag : List Char
  protein_name : List Char
  sequence : List Char
  length : Nat
  index : Nat
deriving DecidableEq

/-- The record constructor of `parse_all_syn3a_proteins`; `index` is the
number of records accumulated so far (`len(proteins)`). -/
def mkSyn3AProtein (header seq : List Char) (idx : Nat) : Syn3AProtein :=
  ⟨extract_protein_id header, extract_locus_tag header, extract_protein_name header,
    seq, seq.length, idx⟩

/-- The line loop of `parse_all_syn3a_proteins` (batch_bacterial_analysis
lines 16-60): a record is flushed only when BOTH the current sequence and
the current header are non-empty (`if current_seq and current_header:`), so
empty sequence bodies are excluded; the header stored is the line without
its leading `>` (`line[1:]`). -/
def batchFastaLoop :
    List (List Char) → List Char → List Char → List Syn3AProtein → List Syn3AProtein
  | [], header, seq, acc =>
    if seq ≠ [] ∧ header ≠ [] then acc ++ [mkSyn3AProtein header seq acc.length] else acc
  | line :: rest, header, seq, acc =>
    let l := pyStrip line
    if l.head? = some '>' then
      let acc' :=
        if seq ≠ [] ∧ header ≠ [] then acc ++ [mkSyn3AProtein header seq acc.length] else acc
      batchFastaLoop rest (l.drop 1) [] acc'
    else batchFastaLoop rest header (seq ++ l) acc

/-- `batch_bacterial_analysis.parse_all_syn3a_proteins` on the lines of
`syn3A_proteins.fasta`. -/
def parse_all_syn3a_proteins (lines : List (List Char)) : List Syn3AProtein :=
  batchFastaLoop lines [] [] []

/-- Only a body classified `ready` has passed the completeness test, so it
is longer than 1000 characters. -/
theorem classifyBody_ready_length {t : List Char} (h : classifyBody t = .ready) :
    1000 < t.length := by
  unfold classifyBody at h
  split_ifs at h with h1 h2 h3 h4
  all_goals simp_all

/-- A `ready` result of `check_blast_status_fast` carries the response body
itself, whose classification is `ready`. -/
theorem check_ready_payload {r : HttpResult} {t : List Char}
    (h : check_blast_status_fast r = (some t, .ready)) :
    classifyBody t = .ready := by
  cases r with
  | err m => simp [check_blast_status_fast] at h
  | ok code body =>
    by_cases hc : code ≠ 200
    · simp [check_blast_status_fast, if_pos hc] at h
    · simp only [check_blast_status_fast, if_neg hc] at h
      rcases hcl : classifyBody body with _ | _ | _ | _ | _ <;> rw [hcl] at h <;> simp_all

/-- A `ready` payload is non-empty (hence truthy for `if not xml_result`). -/
theorem check_ready_nonempty {r : HttpResult} {t : List Char}
    (h : check_blast_status_fast r = (some t, .ready)) : t ≠ [] := by
  have := classifyBody_ready_length (check_ready_payload h)
  intro he
  rw [he] at this
  simp at this

/-- If every query in the remaining budget reports `waiting`, the loop
exhausts its fuel and times out after exactly `fuel` queries. -/
theorem pollLoopFast_all_waiting (responses : Nat → HttpResult) :
    ∀ fuel start,
      (∀ i, start ≤ i → i < start + fuel →
        check_blast_status_fast (responses i) = (none, .waiting)) →
      pollLoopFast responses fuel start = (.timedOut, fuel) := by
  intro fuel
  induction fuel with
  | zero => intro start _; rfl
  | succ f ih =>
    intro start h
    have h0 : check_blast_status_fast (responses start) = (none, .waiting) :=
      h start (Nat.le_refl start) (by omega)
    have hrec : pollLoopFast responses f (start + 1) = (.timedOut, f) :=
      ih (start + 1) (fun i h1 h2 => h i (by omega) (by omega))
    rw [pollLoopFast, h0]
    simp [hrec]

/-- If the first `N` queries report `waiting` and query `N` (zero-based)
reports `ready` with a non-empty payload, the loop breaks with that payload
after exactly `N + 1` queries. -/
theorem pollLoopFast_ready (responses : Nat → HttpResult) :
    ∀ N fuel start t, N < fuel →
      (∀ i, i < N → check_blast_status_fast (responses (start + i)) = (none, .waiting)) →
      check_blast_status_fast (responses (start + N)) = (some t, .ready) →
      pollLoopFast responses fuel start = (.ready t, N + 1) := by
  intro N
  induction N with
  | zero =>
    intro fuel start t hf _ hr
    obtain ⟨f, rfl⟩ : ∃ f, fuel = f + 1 := ⟨fuel - 1, by omega⟩
    rw [Nat.add_zero] at hr
    have hne : t ≠ [] := check_ready_nonempty hr
    rw [pollLoopFast, hr]
    cases t with
    | nil => exact absurd rfl hne
    | cons c cs => rfl
  | succ n ih =>
    intro fuel start t hf hw hr
    obtain ⟨f, rfl⟩ : ∃ f, fuel = f + 1 := ⟨fuel - 1, by omega⟩
    have h0 : check_blast_status_fast (responses start) = (none, .waiting) := by
      have := hw 0 (Nat.succ_pos n)
      rwa [Nat.add_zero] at this
    have hrec : pollLoopFast responses f (start + 1) = (.ready t, n + 1) := by
      refine ih f (start + 1) t (by omega) (fun i hi => ?_) ?_
      · have := hw (i + 1) (by omega)
        rwa [show start + (i + 1) = start + 1 + i by omega] at this
      · rwa [show start + 1 + n = start + (n + 1) by omega]
    rw [pollLoopFast, h0]
    simp [hrec]

/-- A poll-response body carrying both the waiting marker and a complete
result payload (more than 1000 characters, containing `<BlastOutput>`). -/
def c1DualBody : List Char :=
  "Status=WAITING<BlastOutput>".data ++ List.replicate 1000 'A'

/-- C1 counterexample: a body flagged both as a valid result payload
(longer than the minimum size and containing the envelope marker) and as
carrying the waiting marker is classified `waiting`, not `ready` — the
waiting marker is tested first, so such a response is never `ready`. -/
theorem check_status_dual_flag_counterexample :
    occursIn statusWaitingMarker c1DualBody = true ∧
    1000 < c1DualBody.length ∧
    occursIn blastOutputMarker c1DualBody = true ∧
    classifyBody c1DualBody = .waiting ∧
    classifyBody c1DualBody ≠ .ready := by
  refine ⟨by decide, by decide, by decide, by decide, by decide⟩

/-- C1 (amended): the waiting marker takes priority — any body containing
`Status=WAITING` is classified `stillWaiting`, even when it exceeds the
minimum size and contains the result envelope marker; `ready` is returned
exactly for bodies with none of the three status markers that exceed 1000
characters and contain `<BlastOutput>`. -/
theorem check_status_waiting_priority (t : List Char) :
    (classifyBody t = .ready ↔
      occursIn statusWaitingMarker t = false ∧ occursIn statusFailedMarker t = false ∧
      occursIn statusUnknownMarker t = false ∧ 1000 < t.length ∧
      occursIn blastOutputMarker t = true) ∧
    (occursIn statusWaitingMarker t = true → classifyBody t = .waiting) := by
  constructor
  · unfold classifyBody
    split_ifs with h1 h2 h3 h4
    all_goals simp_all
  · intro h
    unfold classifyBody
    simp [h]

/-- C1 witness: instantiating the amended claim at the waiting marker
itself. -/
theorem check_status_waiting_priority_witness :
    classifyBody statusWaitingMarker = .waiting :=
  (check_status_waiting_priority statusWaitingMarker).2 (by decide)

/-- C2 counterexample: the in-place save of `batch_blast_analysis` is not
atomic — interrupting after the truncating `open(progress_file, 'w')` but
before the write leaves the file empty, which is neither the previous
content `"X"` nor the new payload `"Y"`. -/
theorem save_progress_not_atomic_counterexample :
    ¬ atomicSaveFrom (some "X".data) "Y".data := by
  intro h
  rcases h 1 (by decide) with h1 | h1 <;> exact absurd h1 (by decide)

/-- C2 (amended): the progress save writes the serialized state directly
into the progress file — the final content is the new payload, but the
first primitive step truncates the file to empty, so for any non-empty
previous content and non-empty payload an interruption point exists at
which the file holds neither the old nor the new state: the save is not
atomic and the previously saved state does not survive an interruption. -/
theorem save_progress_in_place (c0 : Option (List Char)) (payload : List Char)
    (hc : c0 ≠ some []) (hp : payload ≠ []) :
    runFsOps c0 (saveProgressOps payload) = some payload ∧
    runFsOps c0 ((saveProgressOps payload).take 1) = some [] ∧
    ¬ atomicSaveFrom c0 payload := by
  refine ⟨rfl, rfl, ?_⟩
  intro h
  have heval : runFsOps c0 ((saveProgressOps payload).take 1) = some [] := rfl
  rcases h 1 (by simp [saveProgressOps]) with h1 | h1
  · rw [heval] at h1
    exact hc h1.symm
  · rw [heval] at h1
    exact hp (Option.some.inj h1).symm

/-- C2 witness: the amended claim at a concrete old content and payload. -/
theorem save_progress_in_place_witness :
    runFsOps (some "A".data) (saveProgressOps "B".data) = some "B".data ∧
    runFsOps (some "A".data) ((saveProgressOps "B".data).take 1) = some [] ∧
    ¬ atomicSaveFrom (some "A".data) "B".data :=
  save_progress_in_place (some "A".data) "B".data (by decide) (by decide)

/-- C5: if every status query up to the attempt budget `B` classifies as
`waiting`, the worker's polling loop ends in `timedOut` after exactly `B`
queries (hence at most the budget); if the first `N` queries (zero-based,
`N < B`) classify as `waiting` and query `N` returns `ready` with payload
`t`, the loop ends in `ready t` after `N + 1 ≤ B` queries. -/
theorem polling_budget_terminal (responses : Nat → HttpResult) (B : Nat) :
    ((∀ i, i < B → check_blast_status_fast (responses i) = (none, .waiting)) →
      process_single_protein_poll responses B = (.timedOut, B)) ∧
    (∀ N t, N < B →
      (∀ i, i < N → check_blast_status_fast (responses i) = (none, .waiting)) →
      check_blast_status_fast (responses N) = (some t, .ready) →
      process_single_protein_poll responses B = (.ready t, N + 1) ∧ N + 1 ≤ B) := by
  constructor
  · intro h
    exact pollLoopFast_all_waiting responses B 0 (fun i h1 h2 => h i (by omega))
  · intro N t hN hw hr
    refine ⟨?_, by omega⟩
    refine pollLoopFast_ready responses N B 0 t hN (fun i hi => ?_) ?_
    · simpa using hw i hi
    · simpa using hr

/-- All-waiting response stream for the C5 witness. -/
def c5WaitResponses : Nat → HttpResult := fun _ => .ok 200 statusWaitingMarker

/-- A complete result payload for the C5 witness. -/
def c5ReadyBody : List Char := blastOutputMarker ++ List.replicate 1000 'Q'

/-- Response stream that waits twice and is ready at attempt 2. -/
def c5ReadyResponses : Nat → HttpResult := fun i =>
  if i = 2 then .ok 200 c5ReadyBody else .ok 200 statusWaitingMarker

/-- C5 witness: with a budget of 3 all-waiting attempts the loop times out
after 3 queries; with a budget of 60 and readiness at attempt 2 the loop
returns the payload after 3 queries. -/
theorem polling_budget_terminal_witness :
    process_single_protein_poll c5WaitResponses 3 = (.timedOut, 3) ∧
    process_single_protein_poll c5ReadyResponses 60 = (.ready c5ReadyBody, 3) ∧ 3 ≤ 60 := by
  refine ⟨(polling_budget_terminal c5WaitResponses 3).1 (by decide), ?_⟩
  exact (polling_budget_terminal c5ReadyResponses 60).2 2 c5ReadyBody (by decide)
    (by decide) (by decide)

/-- Every index produced by the batch loop starting at `i` is at least
`i`. -/
theorem batchIndexLoop_ge (n bs : Nat) :
    ∀ fuel i j, j ∈ batchIndexLoop n bs i fuel → i ≤ j := by
  intro fuel
  induction fuel with
  | zero => intro i j h; simp [batchIndexLoop] at h
  | succ f ih =>
    intro i j h
    rw [batchIndexLoop] at h
    by_cases hi : i < n
    · rw [if_pos hi] at h
      rcases List.mem_append.mp h with h | h
      · exact (List.mem_range'_1.mp h).1
      · exact le_trans (Nat.le_add_right i bs) (ih (i + bs) j h)
    · rw [if_neg hi] at h
      simp at h

/-- C6: loading a saved ProgressState with last completed index `k`
re-seeds the accumulated result list from the saved state, resumes at index
`k + 1`, and every protein index processed by the batch loop afterwards is
strictly greater than `k` — no sequence at index `≤ k` is resubmitted. -/
theorem resume_skips_completed_work {α : Type} (saved : Option (ProgressData α))
    (k : Nat) (rs : List α) (n batch_size start0 : Nat)
    (hsaved : saved = some ⟨k, rs⟩) :
    resumeStart saved start0 = k + 1 ∧
    resumeResults saved = rs ∧
    (∀ j ∈ processedIndices n batch_size (resumeStart saved start0), k < j) := by
  subst hsaved
  refine ⟨rfl, rfl, ?_⟩
  intro j hj
  have := batchIndexLoop_ge n batch_size n (k + 1) j hj
  omega

/-- C6 witness: a saved state at index 4 over 10 proteins with batch size
3 resumes at 5, keeps the saved row, and only processes indices above 4. -/
theorem resume_skips_completed_work_witness :
    resumeStart (some (⟨4, ["row".data]⟩ : ProgressData (List Char))) 0 = 5 ∧
    resumeResults (some (⟨4, ["row".data]⟩ : ProgressData (List Char))) = ["row".data] ∧
    (∀ j ∈ processedIndices 10 3
        (resumeStart (some (⟨4, ["row".data]⟩ : ProgressData (List Char))) 0), 4 < j) :=
  resume_skips_completed_work (some ⟨4, ["row".data]⟩) 4 ["row".data] 10 3 0 rfl

/-- C7 counterexample: `submit_blast_fast` on a success response with no
RID pattern returns no handle but the generic outcome `"success"` — the
very outcome used when a handle IS found — so no dedicated missing-handle
outcome exists in that variant. -/
theorem submit_fast_no_rid_counterexample :
    (submit_blast_fast (.ok 200 "no token here".data)).1 = none ∧
    (submit_blast_fast (.ok 200 "no token here".data)).2 =
      (submit_blast_fast (.ok 200 "the RID = ABC123 ok".data)).2 ∧
    (submit_blast_fast (.ok 200 "the RID = ABC123 ok".data)).1 = some "ABC123".data := by
  refine ⟨by decide, by decide, by decide⟩

/-- C7 (amended): in `submit_blast_optimized` a success response without
the RID pattern yields `(None, "No RID found")`, an outcome distinct from
every bad-status outcome `f"HTTP error <code>"`, and a transport failure
returns the exception text; in `submit_blast_fast`, however, the same
situation yields the generic `(None, "success")`, with no dedicated
missing-handle outcome. -/
theorem submit_no_rid_outcomes :
    (∀ body, findRid body = none →
      submit_blast_optimized (.ok 200 body) = (none, "No RID found".data)) ∧
    (∀ code body, code ≠ 200 →
      submit_blast_optimized (.ok code body) =
        (none, "HTTP error ".data ++ (Nat.repr code).data) ∧
      "HTTP error ".data ++ (Nat.repr code).data ≠ "No RID found".data) ∧
    (∀ m, submit_blast_optimized (.err m) = (none, m)) ∧
    (∀ body, findRid body = none →
      submit_blast_fast (.ok 200 body) = (none, "success".data)) := by
  refine ⟨?_, ?_, fun m => rfl, ?_⟩
  · intro body h
    simp [submit_blast_optimized, h]
  · intro code body hc
    refine ⟨by simp [submit_blast_optimized, hc], ?_⟩
    intro h
    have h0 : ("HTTP error ".data ++ (Nat.repr code).data).head? = some 'H' := rfl
    rw [h] at h0
    exact absurd h0 (by decide)
  · intro body h
    simp [submit_blast_fast, h]

/-- C7 witness: the amended claim at concrete responses. -/
theorem submit_no_rid_outcomes_witness :
    submit_blast_optimized (.ok 200 "empty reply".data) = (none, "No RID found".data) ∧
    ("HTTP error ".data ++ (Nat.repr 500).data ≠ "No RID found".data) ∧
    submit_blast_fast (.ok 200 "empty reply".data) = (none, "success".data) :=
  ⟨submit_no_rid_outcomes.1 "empty reply".data (by decide),
    (submit_no_rid_outcomes.2.1 500 "anything".data (by decide)).2,
    submit_no_rid_outcomes.2.2.2 "empty reply".data (by decide)⟩

/-- Every hit collected by the per-block traversal originates from one of
the traversed blocks. -/
theorem collectBlocks_mem {H : Type} (f : HitBlock → Except Unit (Option H)) :
    ∀ (blocks : List HitBlock) (hits : List H), collectBlocks f blocks = .ok hits →
      ∀ x ∈ hits, ∃ b ∈ blocks, f b = .ok (some x) := by
  intro blocks
  induction blocks with
  | nil =>
    intro hits h x hx
    rw [collectBlocks] at h
    cases h
    simp at hx
  | cons b bs ih =>
    intro hits h x hx
    rw [collectBlocks] at h
    cases hf : f b with
    | error e => rw [hf] at h; cases h
    | ok o =>
      rw [hf] at h
      cases o with
      | none =>
        obtain ⟨b', hb', hfb'⟩ := ih hits h x hx
        exact ⟨b', List.mem_cons_of_mem _ hb', hfb'⟩
      | some y =>
        cases hrec : collectBlocks f bs with
        | error e => rw [hrec] at h; cases h
        | ok hs =>
          rw [hrec] at h
          cases h
          rcases List.mem_cons.mp hx with rfl | hx'
          · exact ⟨b, List.mem_cons_self b bs, hf⟩
          · obtain ⟨b', hb', hfb'⟩ := ih hs hrec x hx'
            exact ⟨b', List.mem_cons_of_mem _ hb', hfb'⟩

/-- If any traversed block raises, the whole traversal raises. -/
theorem collectBlocks_error {H : Type} (f : HitBlock → Except Unit (Option H)) :
    ∀ (blocks : List HitBlock) (b : HitBlock), b ∈ blocks → f b = .error () →
      collectBlocks f blocks = .error () := by
  intro blocks
  induction blocks with
  | nil => intro b h _; simp at h
  | cons b0 bs ih =>
    intro b hb hf
    rcases List.mem_cons.mp hb with rfl | hb'
    · rw [collectBlocks, hf]
    · cases hf0 : f b0 with
      | error e => cases e; rw [collectBlocks, hf0]
      | ok o =>
        have hrec := ih b hb' hf
        cases o with
        | none => rw [collectBlocks, hf0]; exact hrec
        | some y => rw [collectBlocks, hf0, hrec]

/-- An excluded block contributes nothing in the web extractor. -/
theorem processHitWeb_excluded (cfg : BlastConfig) (query_length : Nat) (b : HitBlock)
    (h : excludedWeb cfg.exclude_organisms b = true) :
    processHitWeb cfg query_length b = .ok none := by
  simp [processHitWeb, h]

/-- An excluded block contributes nothing in the fast extractor. -/
theorem processHitFast_excluded (query_length : Nat) (b : HitBlock)
    (h : excludedFast b = true) :
    processHitFast query_length b = .ok none := by
  simp [processHitFast, h]

/-- The E-value comparator used for sorting is total. -/
instance : IsTotal WebHit (fun a b => a.evalue ≤ b.evalue) :=
  ⟨fun a b => le_total a.evalue b.evalue⟩

/-- The E-value comparator used for sorting is transitive. -/
instance : IsTrans WebHit (fun a b => a.evalue ≤ b.evalue) :=
  ⟨fun _ _ _ hab hbc => le_trans hab hbc⟩

/-- An E-value-filtered block that passes the web filters (the block used
by several concrete instances below). -/
def sampleGoodBlock : HitBlock :=
  ⟨some "Escherichia coli".data, some "WP_1".data, some 300,
    [⟨some (mkRat 1 2000), some 80, some 100, some (mkRat 501 10)⟩]⟩

/-- The web hit extracted from `sampleGoodBlock` at query length 100. -/
def sampleWebHit : WebHit :=
  ⟨"WP_1".data, "Escherichia coli".data, 300, mkRat 1 2000, 80, 100, mkRat 501 10, 80, 100⟩

/-- The fast hit extracted from `sampleGoodBlock` at query length 100. -/
def sampleFastHit : FastHit :=
  ⟨"WP_1".data, "Escherichia coli".data, mkRat 1 2000, 80, 100⟩

/-- A block whose first alignment segment has alignment length 0, making
the identity-percentage division raise. -/
def zeroAlignBlock : HitBlock :=
  ⟨some "Bacillus subtilis".data, some "WP_2".data, some 200,
    [⟨some (mkRat 1 2000), some 10, some 0, none⟩]⟩

/-- C10: if processing any single hit block raises (for example a block
whose alignment length parses as 0), the exception is caught at the
whole-payload level and extraction returns the empty list, discarding every
hit retained from other blocks — in both the web and the parallel fast
extractor (whose blocks are the first 10 raw blocks). -/
theorem parse_error_discards_all_hits
    (cfg : BlastConfig) (query_length : Nat) (blocks : List HitBlock) :
    (∀ b ∈ blocks, processHitWeb cfg query_length b = .error () →
      parse_blast_xml cfg query_length blocks = []) ∧
    (∀ b ∈ blocks.take 10, processHitFast query_length b = .error () →
      parse_blast_xml_fast query_length blocks = []) := by
  constructor
  · intro b hb hf
    unfold parse_blast_xml
    rw [collectBlocks_error _ blocks b hb hf]
  · intro b hb hf
    unfold parse_blast_xml_fast
    rw [collectBlocks_error _ (blocks.take 10) b hb hf]

/-- C10 witness: a payload with a good first block and a zero-alignment
second block extracts to the empty list in both extractors, although the
first block alone would have produced a hit. -/
theorem parse_error_discards_all_hits_witness :
    parse_blast_xml webConfig 100 [sampleGoodBlock, zeroAlignBlock] = [] ∧
    parse_blast_xml_fast 100 [sampleGoodBlock, zeroAlignBlock] = [] ∧
    parse_blast_xml webConfig 100 [sampleGoodBlock] = [sampleWebHit] := by
  have h := parse_error_discards_all_hits webConfig 100 [sampleGoodBlock, zeroAlignBlock]
  exact ⟨h.1 zeroAlignBlock (by decide) (by rfl), h.2 zeroAlignBlock (by decide) (by rfl),
    by decide⟩

/-- A passing block with E-value 1/200, listed first. -/
def c3BlockA : HitBlock :=
  ⟨some "Escherichia coli A".data, some "WP_3".data, some 300,
    [⟨some (mkRat 1 200), some 80, some 100, none⟩]⟩

/-- A passing block with the better E-value 1/1000, listed second. -/
def c3BlockB : HitBlock :=
  ⟨some "Escherichia coli B".data, some "WP_4".data, some 300,
    [⟨some (mkRat 1 1000), some 80, some 100, none⟩]⟩

/-- The fast hit extracted from `c3BlockA`. -/
def c3HitA : FastHit := ⟨"WP_3".data, "Escherichia coli A".data, mkRat 1 200, 80, 100⟩

/-- The fast hit extracted from `c3BlockB`. -/
def c3HitB : FastHit := ⟨"WP_4".data, "Escherichia coli B".data, mkRat 1 1000, 80, 100⟩

/-- C3 counterexample: the parallel fast extractor applies no sort — a
payload whose passing blocks appear in descending significance order is
returned as-is, violating the consecutive-pair E-value invariant. -/
theorem fast_hits_unsorted_counterexample :
    (parse_blast_xml_fast 100 [c3BlockA, c3BlockB]).map FastHit.evalue =
      [mkRat 1 200, mkRat 1 1000] ∧
    ¬ ((mkRat 1 200 : ℚ) ≤ mkRat 1 1000) ∧
    ¬ List.Chain' (fun a b => a.evalue ≤ b.evalue)
        (parse_blast_xml_fast 100 [c3BlockA, c3BlockB]) := by
  refine ⟨by decide, by decide, ?_⟩
  intro h
  rw [show parse_blast_xml_fast 100 [c3BlockA, c3BlockB] = [c3HitA, c3HitB] from by decide]
    at h
  exact absurd (List.chain'_cons.mp h).1 (by decide)

/-- C3 (amended): the web extractor's hit list is sorted ascending by
E-value — every consecutive pair satisfies `E-value[i] ≤ E-value[i+1]` —
via a stable sort keyed on the E-value alone (ties keep original block
order; descending bit score is not a tie-break key).  The parallel fast
extractor applies no sort, so the invariant holds only for the web
extractor. -/
theorem web_hits_sorted_by_evalue (cfg : BlastConfig) (query_length : Nat)
    (blocks : List HitBlock) :
    List.Chain' (fun a b => a.evalue ≤ b.evalue)
      (parse_blast_xml cfg query_length blocks) := by
  unfold parse_blast_xml
  cases h : collectBlocks (processHitWeb cfg query_length) blocks with
  | error e => exact List.chain'_nil
  | ok hits =>
    exact List.Pairwise.chain'
      (List.sorted_insertionSort (fun a b : WebHit => a.evalue ≤ b.evalue) hits)

/-- C4 counterexample: `parse_blast_xml_fast` truncates to the first 10 raw
blocks before filtering — with ten filtered-out blocks followed by one
passing block, the passing block is dropped and the result is empty, even
though that block passes every filter. -/
theorem fast_cap_drops_best_hit_counterexample :
    processHitFast 100
      (⟨some "Escherichia coli D".data, some "WP_6".data, some 300,
        [⟨some (mkRat 1 100000), some 80, some 100, none⟩]⟩ : HitBlock) =
      .ok (some ⟨"WP_6".data, "Escherichia coli D".data, mkRat 1 100000, 80, 100⟩) ∧
    parse_blast_xml_fast 100
      (List.replicate 10
        (⟨some "Escherichia coli C".data, some "WP_5".data, some 300,
          [⟨some 1, some 80, some 100, none⟩]⟩ : HitBlock) ++
        [⟨some "Escherichia coli D".data, some "WP_6".data, some 300,
          [⟨some (mkRat 1 100000), some 80, some 100, none⟩]⟩]) = [] := by
  refine ⟨by rfl, by decide⟩

/-- C4 (amended): the fast extractors cap the candidate set BEFORE
filtering and sorting: only the first 10 (respectively 8) raw blocks are
ever examined — the parses of a payload and of its 10- (resp. 8-) block
prefix coincide — and every extracted hit originates from a block of that
prefix, so a passing block beyond the prefix never contributes. -/
theorem fast_cap_truncates_before_filter (query_length : Nat) (blocks : List HitBlock) :
    parse_blast_xml_fast query_length blocks =
      parse_blast_xml_fast query_length (blocks.take 10) ∧
    parse_xml_fast query_length blocks = parse_xml_fast query_length (blocks.take 8) ∧
    (∀ x ∈ parse_blast_xml_fast query_length blocks,
      ∃ b ∈ blocks.take 10, processHitFast query_length b = .ok (some x)) ∧
    (∀ x ∈ parse_xml_fast query_length blocks,
      ∃ b ∈ blocks.take 8, processHitFast2 query_length b = .ok (some x)) := by
  refine ⟨by simp [parse_blast_xml_fast, List.take_take],
    by simp [parse_xml_fast, List.take_take], ?_, ?_⟩
  · intro x hx
    unfold parse_blast_xml_fast at hx
    cases h : collectBlocks (processHitFast query_length) (blocks.take 10) with
    | error e => rw [h] at hx; simp at hx
    | ok hits =>
      rw [h] at hx
      exact collectBlocks_mem _ (blocks.take 10) hits h x hx
  · intro x hx
    unfold parse_xml_fast at hx
    cases h : collectBlocks (processHitFast2 query_length) (blocks.take 8) with
    | error e => rw [h] at hx; simp at hx
    | ok hits =>
      rw [h] at hx
      exact collectBlocks_mem _ (blocks.take 8) hits h x hx

/-- C4 witness: the amended claim at a one-block payload. -/
theorem fast_cap_truncates_before_filter_witness :
    ∃ b ∈ [sampleGoodBlock].take 10, processHitFast 100 b = .ok (some sampleFastHit) :=
  (fast_cap_truncates_before_filter 100 [sampleGoodBlock]).2.2.1 sampleFastHit (by decide)

/-- Exclusion configuration whose entry carries an uppercase letter. -/
def c8CaseCfg : BlastConfig :=
  { webConfig with exclude_organisms := ["Mycoplasma".data] }

/-- A block whose description contains the exclusion entry of `c8CaseCfg`
as a case-insensitive substring. -/
def c8MycoBlock : HitBlock :=
  ⟨some "Mycoplasma mycoides chaperone".data, some "WP_9".data, some 300,
    [⟨some (mkRat 1 2000), some 80, some 100, some (mkRat 501 10)⟩]⟩

/-- C8 counterexample: the web exclusion compares the entries verbatim
against the lowercased description, so with the exclusion set
`['Mycoplasma']` a block whose description contains `mycoplasma`
(a case-insensitive match of the entry) is retained and appears in the
extracted hit list. -/
theorem exclusion_case_sensitivity_counterexample :
    occursIn (lowerL "Mycoplasma".data)
      (lowerL "Mycoplasma mycoides chaperone".data) = true ∧
    (parse_blast_xml c8CaseCfg 100 [c8MycoBlock]).map WebHit.hit_def =
      ["Mycoplasma mycoides chaperone".data] := by
  refine ⟨by decide, by decide⟩

/-- C8 (amended): every extracted hit originates from a block that the
client-side exclusion test retained; for the web extractor the test matches
the configured entries verbatim against the lowercased description (so it
is case-insensitive only for lowercase entries, as the shipped
`'mycoplasma'` is), and for the parallel fast extractor the hardcoded
lowercase `'mycoplasma'` is matched case-insensitively. -/
theorem extracted_hits_from_unexcluded_blocks
    (cfg : BlastConfig) (query_length : Nat) (blocks : List HitBlock) :
    (∀ x ∈ parse_blast_xml cfg query_length blocks,
      ∃ b ∈ blocks, processHitWeb cfg query_length b = .ok (some x) ∧
        excludedWeb cfg.exclude_organisms b = false) ∧
    (∀ x ∈ parse_blast_xml_fast query_length blocks,
      ∃ b ∈ blocks, processHitFast query_length b = .ok (some x) ∧
        excludedFast b = false) := by
  constructor
  · intro x hx
    unfold parse_blast_xml at hx
    cases h : collectBlocks (processHitWeb cfg query_length) blocks with
    | error e => rw [h] at hx; simp at hx
    | ok hits =>
      rw [h] at hx
      have hx' : x ∈ hits :=
        (List.perm_insertionSort (fun a b : WebHit => a.evalue ≤ b.evalue) hits).mem_iff.mp hx
      obtain ⟨b, hb, hfb⟩ := collectBlocks_mem _ blocks hits h x hx'
      refine ⟨b, hb, hfb, ?_⟩
      by_contra hex
      rw [Bool.not_eq_false] at hex
      rw [processHitWeb_excluded cfg query_length b hex] at hfb
      exact Option.noConfusion (Except.ok.inj hfb)
  · intro x hx
    unfold parse_blast_xml_fast at hx
    cases h : collectBlocks (processHitFast query_length) (blocks.take 10) with
    | error e => rw [h] at hx; simp at hx
    | ok hits =>
      rw [h] at hx
      obtain ⟨b, hb, hfb⟩ := collectBlocks_mem _ (blocks.take 10) hits h x hx
      refine ⟨b, List.take_subset 10 blocks hb, hfb, ?_⟩
      by_contra hex
      rw [Bool.not_eq_false] at hex
      rw [processHitFast_excluded query_length b hex] at hfb
      exact Option.noConfusion (Except.ok.inj hfb)

/-- C8 witness: the amended claim at a one-block payload, for both
extractors. -/
theorem extracted_hits_from_unexcluded_blocks_witness :
    (∃ b ∈ [sampleGoodBlock], processHitWeb webConfig 100 b = .ok (some sampleWebHit) ∧
      excludedWeb webConfig.exclude_organisms b = false) ∧
    (∃ b ∈ [sampleGoodBlock], processHitFast 100 b = .ok (some sampleFastHit) ∧
      excludedFast b = false) :=
  ⟨(extracted_hits_from_unexcluded_blocks webConfig 100 [sampleGoodBlock]).1
      sampleWebHit (by decide),
    (extracted_hits_from_unexcluded_blocks webConfig 100 [sampleGoodBlock]).2
      sampleFastHit (by decide)⟩

/-- C9 counterexample: `parse_fasta_file` (web pipeline) keeps a record
whose sequence body is empty — a header line immediately followed by
another header line yields a record with the empty sequence. -/
theorem web_parse_keeps_empty_sequence_counterexample :
    (parse_fasta_file [">A".data, ">B [protein=coat]".data, "SEQX".data]).map
      FastaProtein.sequence = [[], "SEQX".data] := by
  decide

/-- The batch FASTA loop only ever appends records with a non-empty
sequence body. -/
theorem batchFastaLoop_nonempty :
    ∀ (lines : List (List Char)) (header seq : List Char) (acc : List Syn3AProtein),
      (∀ x ∈ acc, x.sequence ≠ []) →
      ∀ x ∈ batchFastaLoop lines header seq acc, x.sequence ≠ [] := by
  intro lines
  induction lines with
  | nil =>
    intro header seq acc hacc x hx
    rw [batchFastaLoop] at hx
    split at hx
    · rcases List.mem_append.mp hx with h1 | h1
      · exact hacc x h1
      · rename_i hcond
        simp only [List.mem_singleton] at h1
        subst h1
        exact hcond.1
    · exact hacc x hx
  | cons line rest ih =>
    intro header seq acc hacc x hx
    rw [batchFastaLoop] at hx
    split at hx
    · refine ih _ _ _ ?_ x hx
      split
      · rename_i hcond
        intro y hy
        rcases List.mem_append.mp hy with h1 | h1
        · exact hacc y h1
        · simp only [List.mem_singleton] at h1
          subst h1
          exact hcond.1
      · exact hacc
    · exact ih _ _ _ hacc x hx

/-- C9 (amended): `parse_all_syn3a_proteins` (batch pipeline) excludes
records with empty sequence bodies rather than raising, so every record it
returns has a non-empty sequence; the web pipeline's `parse_fasta_file`,
by contrast, keeps such records (it too never raises). -/
theorem batch_parse_sequences_nonempty (lines : List (List Char)) :
    ∀ x ∈ parse_all_syn3a_proteins lines, x.sequence ≠ [] :=
  batchFastaLoop_nonempty lines [] [] [] (by simp)

/-- C9 witness: the amended claim at a two-line input producing one
record. -/
theorem batch_parse_sequences_nonempty_witness :
    (mkSyn3AProtein "h [protein_id=AOZ1]".data "MKV".data 0).sequence ≠ [] :=
  batch_parse_sequences_nonempty [">h [protein_id=AOZ1]".data, "MKV".data]
    (mkSyn3AProtein "h [protein_id=AOZ1]".data "MKV".data 0) (by decide)
